import Mathlib

/-!
Shallow embedding of `main.py` of the cotton-crop disease-detection app:
image preprocessing, model inference (arg-max classification), and the
SQLite-backed user/prediction store.  Machine floats of the original are
modelled as rationals; the SQLite database file is modelled as an explicit
`DBState` value threaded through each operation; the `try/except` wrapper
around every I/O call is modelled by an `Option String` parameter holding
the exception raised by the underlying library call (`none` = no failure).
-/

namespace CottonApp

/-! ## Image model (PIL images and numpy preprocessing) -/

/-- Modelled from the spec: a PIL image as used by `preprocess_image`.
Pixel channel values are 8-bit (`Fin 256`), the colour mode is a string
such as "RGB" or "L".  The pixel grid is total; only the `width × height`
window is meaningful. -/
structure PILImage where
  width : Nat
  height : Nat
  mode : String
  pixel : Nat → Nat → Fin 3 → Fin 256

/-- Modelled from the spec: `Image.resize((w, h))` of the PIL library.
Returns an image of exactly the requested size; the resampling kernel is
modelled as nearest-neighbour (none of the verified properties depend on
the resampling kernel, only on the output size and 8-bit value range). -/
def PILImage.resize (img : PILImage) (size : Nat × Nat) : PILImage :=
  ⟨size.1, size.2, img.mode,
    fun i j c => img.pixel (i * img.height / size.2) (j * img.width / size.1) c⟩

/-- Modelled from the spec: `Image.convert(mode)` of the PIL library.
Returns the same picture re-encoded in the requested colour mode; the
channel data conversion itself is modelled as the identity (the verified
properties depend only on the mode and the 8-bit value range). -/
def PILImage.convert (img : PILImage) (m : String) : PILImage :=
  ⟨img.width, img.height, m, img.pixel⟩

/-- A rank-3 numpy array (height × width × channels) of rationals. -/
abbrev Arr3 := List (List (List ℚ))

/-- A rank-4 numpy array (batch × height × width × channels) of rationals. -/
abbrev Arr4 := List (List (List (List ℚ)))

/-- `np.array(image) / 255.0`: the pixel grid of an RGB image as a
(height × width × 3) array with every 8-bit value divided by 255. -/
def np_array_div255 (img : PILImage) : Arr3 :=
  (List.range img.height).map fun i =>
    (List.range img.width).map fun j =>
      (List.finRange 3).map fun c => ((img.pixel i j c : ℕ) : ℚ) / 255

/-- Embedding of `preprocess_image` (main.py lines 827-838): resize to
128×128, convert to RGB when the mode is not already RGB, divide by 255,
and prepend a batch dimension (`np.expand_dims(_, axis=0)` = `[·]`).
The happy path always succeeds, hence `some`; the `except` arm of the
original returns `None`. -/
def preprocess_image (image : PILImage) : Option Arr4 :=
  let image1 := image.resize (128, 128)
  let image2 := if image1.mode ≠ "RGB" then image1.convert "RGB" else image1
  let image_array := np_array_div255 image2
  some [image_array]

/-! ## Disease metadata and class names -/

/-- The value type of the `disease_info` table: the five fields stored per
disease label in main.py lines 754-818. -/
structure DiseaseDetails where
  description : String
  treatment : String
  prevention : String
  severity : String
  color : String
deriving DecidableEq

/-- Embedding of the `disease_info` constant (main.py lines 754-818), as an
association list in the key order of the source.  Longer field texts are
abbreviated; the verified properties depend only on the key set and
on every key carrying all five fields. -/
def disease_info : List (String × DiseaseDetails) :=
  [("Healthy",
    ⟨"The cotton plant appears to be in good health with no visible signs of disease.",
     "Continue regular care and monitoring.", "Regular inspection, proper spacing, adequate nutrition, and good agricultural practices.",
     "None", "#28a745"⟩),
   ("Infected-Aphids",
    ⟨"Aphids are small, soft-bodied insects that feed on plant sap.",
     "Apply insecticidal soap, neem oil, or systemic insecticides.", "Regular monitoring, companion planting, maintaining plant health, and early detection.",
     "Medium", "#ffc107"⟩),
   ("Infected-Army worm",
    ⟨"Army worms are caterpillars that can cause significant damage.",
     "Apply appropriate insecticides, use biological control agents.", "Regular field scouting, crop rotation, maintaining beneficial insect populations.",
     "High", "#dc3545"⟩),
   ("Infected-Bacterial Blight",
    ⟨"A bacterial disease causing dark, water-soaked lesions.",
     "Apply copper-based bactericides, remove infected plant debris.", "Use resistant varieties, avoid overhead irrigation, maintain field sanitation.",
     "High", "#dc3545"⟩),
   ("Infected-Cotton Boll Rot",
    ⟨"A fungal disease affecting cotton bolls.",
     "Apply fungicides, improve air circulation, remove infected bolls.", "Plant resistant varieties, maintain proper plant spacing, avoid excessive moisture.",
     "High", "#dc3545"⟩),
   ("Infected-Curl Virus",
    ⟨"A viral disease causing leaf curling, yellowing, and stunted growth.",
     "Remove infected plants, control vector insects.", "Use resistant varieties, control whitefly populations, maintain field hygiene.",
     "High", "#dc3545"⟩),
   ("Infected-Fussarium Wilt",
    ⟨"A soil-borne fungal disease causing wilting.",
     "Use resistant varieties, improve soil drainage.", "Plant resistant cultivars, maintain soil health, avoid waterlogged conditions.",
     "Very High", "#8b0000"⟩),
   ("Infected-Powdery mildew",
    ⟨"A fungal disease characterized by white, powdery spots.",
     "Apply fungicides, improve air circulation.", "Maintain proper plant spacing, ensure good air circulation, avoid high humidity.",
     "Medium", "#ffc107"⟩),
   ("Infected-Target Spot",
    ⟨"A fungal disease causing circular spots with concentric rings.",
     "Apply appropriate fungicides, remove infected debris.", "Use resistant varieties, maintain field sanitation, avoid prolonged leaf wetness.",
     "Medium", "#ffc107"⟩)]

/-- Embedding of the `class_names` constant (main.py lines 821-825). -/
def class_names : List String :=
  ["Healthy", "Infected-Aphids", "Infected-Army worm", "Infected-Bacterial Blight",
   "Infected-Cotton Boll Rot", "Infected-Curl Virus", "Infected-Fussarium Wilt",
   "Infected-Powdery mildew", "Infected-Target Spot"]

/-! ## Inference -/

/-- Modelled from the spec: `np.argmax` on a vector, i.e. the index of the
first occurrence of the maximum entry; `none` on the empty vector (numpy
raises there, and the `except` arm of the caller catches that). -/
def np_argmax : List ℚ → Option Nat
  | [] => none
  | x :: xs =>
    match np_argmax xs with
    | none => some 0
    | some j => if x < xs.getD j 0 then some (j + 1) else some 0

/-- Embedding of `predict_disease` (main.py lines 840-850).  The loaded
model is a function from the preprocessed array to an optional output
batch; `none` models `model.predict` raising.  Both a numpy failure and an
out-of-range index into `class_names` land in the `except` arm, which
returns `(None, None, None)`. -/
def predict_disease (model : Arr4 → Option (List ℚ)) (image_array : Arr4) :
    Option String × Option ℚ × Option (List ℚ) :=
  match model image_array with
  | none => (none, none, none)
  | some predictions0 =>
    match np_argmax predictions0 with
    | none => (none, none, none)
    | some i =>
      match class_names.get? i, predictions0.get? i with
      | some c, some conf => (some c, some conf, some predictions0)
      | _, _ => (none, none, none)

/-! ## Database model

The SQLite file `cotton_disease_app.db` is modelled as a `DBState` value:
the two tables as row lists in insertion (rowid) order, plus the two
`AUTOINCREMENT` counters.  `CURRENT_TIMESTAMP` on prediction insertion is
modelled by the strictly increasing insertion counter. -/

/-- A row of the `users` table (main.py lines 39-47). -/
structure UserRow where
  id : Nat
  username : String
  email : String
  password_hash : String
deriving DecidableEq

/-- A row of the `predictions` table (main.py lines 50-59). -/
structure PredRow where
  id : Nat
  user_id : Nat
  disease : String
  confidence : ℚ
  image_name : Option String
  prediction_date : Nat
deriving DecidableEq

/-- The database file: both tables plus the autoincrement counters. -/
structure DBState where
  users : List UserRow
  predictions : List PredRow
  nextUserId : Nat
  nextPredId : Nat
deriving DecidableEq

/-- Embedding of `init_database` (main.py lines 32-67): `CREATE TABLE IF
NOT EXISTS` on a fresh file yields two empty tables, with SQLite rowids
starting at 1. -/
def init_database : DBState := ⟨[], [], 1, 1⟩

/-- Modelled from the spec: `hashlib.sha256(password.encode()).hexdigest()`
(main.py lines 70-72).  SHA-256 is library code outside this repository;
it is modelled as a fixed deterministic digest function on strings.  No
verified property depends on the internals of the digest, only on login
comparing the stored digest against the digest of the supplied password. -/
def hash_password (password : String) : String :=
  "sha256:" ++ password

/-- Embedding of `register_user` (main.py lines 74-97).  The SQLite
`UNIQUE` constraints raise `IntegrityError` on a duplicate username or
email, which the source maps to the two "already exists" messages by
substring tests on the error text; `exc` injects any other exception of
the underlying calls, caught by the generic `except` arm. -/
def register_user (exc : Option String) (db : DBState)
    (username email password : String) : DBState × Bool × String :=
  match exc with
  | some e => (db, false, "Registration failed: " ++ e)
  | none =>
    if db.users.any fun u => u.username == username then
      (db, false, "Username already exists!")
    else if db.users.any fun u => u.email == email then
      (db, false, "Email already exists!")
    else
      (⟨db.users ++ [⟨db.nextUserId, username, email, hash_password password⟩],
        db.predictions, db.nextUserId + 1, db.nextPredId⟩,
       true, "Registration successful!")

/-- The result of `login_user`: either the `{id, username, email}` dict of
the authenticated user or an error message string. -/
inductive LoginResult where
  | success (id : Nat) (username : String) (email : String)
  | failure (msg : String)
deriving DecidableEq

/-- Embedding of `login_user` (main.py lines 99-119): `SELECT id, username,
email FROM users WHERE username = ? AND password_hash = ?` followed by
`fetchone` is the first matching row in rowid order. -/
def login_user (exc : Option String) (db : DBState)
    (username password : String) : DBState × LoginResult :=
  match exc with
  | some e => (db, .failure ("Login failed: " ++ e))
  | none =>
    match db.users.find? fun u =>
        u.username == username && u.password_hash == hash_password password with
    | some u => (db, .success u.id u.username u.email)
    | none => (db, .failure "Invalid username or password!")

/-- Embedding of `save_user_prediction` (main.py lines 121-137): insert one
row into `predictions`; the row takes the next rowid and the current
timestamp (modelled by the same counter). -/
def save_user_prediction (exc : Option String) (db : DBState) (user_id : Nat)
    (disease : String) (confidence : ℚ) (image_name : Option String) :
    DBState × Bool :=
  match exc with
  | some _ => (db, false)
  | none =>
    (⟨db.users,
      db.predictions ++
        [⟨db.nextPredId, user_id, disease, confidence, image_name, db.nextPredId⟩],
      db.nextUserId, db.nextPredId + 1⟩,
     true)

/-- One element of the list returned by `get_user_predictions`: the dict
built in main.py lines 153-161.  `pred[2] or "Unknown"` maps both `None`
and the empty string to "Unknown". -/
structure PredEntry where
  disease : String
  confidence : ℚ
  image_name : String
  timestamp : Nat
deriving DecidableEq

/-- The dict built from one fetched `predictions` row. -/
def predEntryOf (p : PredRow) : PredEntry :=
  ⟨p.disease, p.confidence,
   match p.image_name with
   | none => "Unknown"
   | some s => if s = "" then "Unknown" else s,
   p.prediction_date⟩

/-- The `ORDER BY prediction_date DESC` comparison on prediction rows. -/
def predDateGE (a b : PredRow) : Prop :=
  b.prediction_date ≤ a.prediction_date

instance : DecidableRel predDateGE := fun a b =>
  inferInstanceAs (Decidable (b.prediction_date ≤ a.prediction_date))

instance : IsTotal PredRow predDateGE :=
  ⟨fun a b => le_total b.prediction_date a.prediction_date⟩

instance : IsTrans PredRow predDateGE :=
  ⟨fun _ _ _ h h2 => le_trans h2 h⟩

/-- Embedding of `get_user_predictions` (main.py lines 139-164): the rows
with the given `user_id`, sorted by `prediction_date` descending, each
turned into the result dict. -/
def get_user_predictions (exc : Option String) (db : DBState) (user_id : Nat) :
    DBState × List PredEntry :=
  match exc with
  | some _ => (db, [])
  | none =>
    (db,
     (List.insertionSort predDateGE
        (db.predictions.filter fun p => p.user_id == user_id)).map predEntryOf)

/-- The inference path of the upload page (main.py lines 1310-1322):
preprocess the uploaded image, run `predict_disease`, and, when a class
came back, save the prediction to the history of the user. -/
def app_predict_and_save (exc : Option String) (model : Arr4 → Option (List ℚ))
    (db : DBState) (uid : Nat) (image : PILImage) (image_name : Option String) :
    DBState :=
  match preprocess_image image with
  | none => db
  | some image_array =>
    match predict_disease model image_array with
    | (some predicted_class, some confidence, _) =>
      (save_user_prediction exc db uid predicted_class confidence image_name).1
    | _ => db

/-- Database states reachable from a fresh database by the
store operations of the application, with arbitrary arguments and exception
behaviour of the underlying SQLite calls. -/
inductive Reachable : DBState → Prop where
  | init : Reachable init_database
  | register (exc : Option String) (un em pw : String) {db : DBState} :
      Reachable db → Reachable (register_user exc db un em pw).1
  | login (exc : Option String) (un pw : String) {db : DBState} :
      Reachable db → Reachable (login_user exc db un pw).1
  | save (exc : Option String) (uid : Nat) (d : String) (c : ℚ)
      (n : Option String) {db : DBState} :
      Reachable db → Reachable (save_user_prediction exc db uid d c n).1
  | history (exc : Option String) (uid : Nat) {db : DBState} :
      Reachable db → Reachable (get_user_predictions exc db uid).1

/-- Modelled from the spec: the trained model artifact
`trained_cotton_disease_model.keras` is part of the repository but not of
`src/`; per the spec its classification head is a softmax, so its output
vectors are probability vectors with every entry in [0, 1]. -/
def ModelOutputsProb (model : Arr4 → Option (List ℚ)) : Prop :=
  ∀ a v, model a = some v → ∀ x ∈ v, 0 ≤ x ∧ x ≤ 1

/-- Database states reachable when predictions are saved only through the
inference path of the application (`app_predict_and_save`) with a model whose
outputs are probability vectors. -/
inductive ReachableApp : DBState → Prop where
  | init : ReachableApp init_database
  | register (exc : Option String) (un em pw : String) {db : DBState} :
      ReachableApp db → ReachableApp (register_user exc db un em pw).1
  | login (exc : Option String) (un pw : String) {db : DBState} :
      ReachableApp db → ReachableApp (login_user exc db un pw).1
  | infer (exc : Option String) (model : Arr4 → Option (List ℚ)) (uid : Nat)
      (image : PILImage) (n : Option String) {db : DBState} :
      ModelOutputsProb model →
      ReachableApp db →
      ReachableApp (app_predict_and_save exc model db uid image n)
  | history (exc : Option String) (uid : Nat) {db : DBState} :
      ReachableApp db → ReachableApp (get_user_predictions exc db uid).1

/-- Pairwise distinctness of both usernames and emails: the invariant the
two SQLite `UNIQUE` constraints maintain. -/
def UsersUnique (db : DBState) : Prop :=
  db.users.Pairwise fun a b => a.username ≠ b.username ∧ a.email ≠ b.email

/-! ## Named contracts (used by the theorems below and their concrete
instantiations) -/

/-- The functional contract of `predict_disease` on a successful model
call: some index `i` is the arg-max of the output vector (first index
attaining the maximum), and the returned triple is the class name at `i`,
the value at `i`, and the full vector. -/
def PredictContract (model : Arr4 → Option (List ℚ)) (image_array : Arr4)
    (preds : List ℚ) : Prop :=
  ∃ i c, np_argmax preds = some i ∧ i < preds.length ∧
    (∀ j, j < preds.length → preds.getD j 0 ≤ preds.getD i 0) ∧
    (∀ j, j < i → preds.getD j 0 < preds.getD i 0) ∧
    class_names.get? i = some c ∧
    predict_disease model image_array = (some c, some (preds.getD i 0), some preds)

/-- The functional contract of `login_user` on a fault-free call: success
returns exactly the id, username and email of a stored row whose username
is the given one and whose password hash is the digest of the given
password; failure carries the fixed message and means no such row exists. -/
def LoginContract (db : DBState) (username password : String) : Prop :=
  match (login_user none db username password).2 with
  | .success i u e =>
      u = username ∧ (⟨i, u, e, hash_password password⟩ : UserRow) ∈ db.users
  | .failure m =>
      m = "Invalid username or password!" ∧
        ∀ r ∈ db.users,
          ¬(r.username = username ∧ r.password_hash = hash_password password)

/-- The functional contract of `preprocess_image`: the result is `some`
batch of one 128×128×3 array, obtained by dividing the 8-bit pixel values
of a 128×128 RGB image by 255, so every entry lies in [0, 1]. -/
def PreprocessContract (image : PILImage) : Prop :=
  ∃ img2 : PILImage, img2.mode = "RGB" ∧ img2.width = 128 ∧ img2.height = 128 ∧
    preprocess_image image = some [np_array_div255 img2] ∧
    [np_array_div255 img2].length = 1 ∧
    (np_array_div255 img2).length = 128 ∧
    ∀ row ∈ np_array_div255 img2, row.length = 128 ∧
      ∀ px ∈ row, px.length = 3 ∧ ∀ v ∈ px, 0 ≤ v ∧ v ≤ 1

/-- The frame contract of the store operations: login and history reads
leave the whole database unchanged, saving a prediction leaves the users
table unchanged (also through the inference path), and registration at
most appends one new user row. -/
def FrameContract (exc : Option String) (db : DBState) (un em pw : String)
    (uid : Nat) (d : String) (c : ℚ) (n : Option String)
    (model : Arr4 → Option (List ℚ)) (img : PILImage) (nm : Option String) :
    Prop :=
  (login_user exc db un pw).1 = db ∧
  (get_user_predictions exc db uid).1 = db ∧
  (save_user_prediction exc db uid d c n).1.users = db.users ∧
  (app_predict_and_save exc model db uid img nm).users = db.users ∧
  ((register_user exc db un em pw).1.users = db.users ∨
    (register_user exc db un em pw).1.users
      = db.users ++ [⟨db.nextUserId, un, em, hash_password pw⟩])

/-- The contract of `get_user_predictions` and of the prediction log: the
returned list is exactly the rows with the given user id (as result
dicts), ordered newest first by `prediction_date`, and no store operation
ever removes or rewrites an existing prediction row — each either leaves
the `predictions` table unchanged or appends exactly one row. -/
def HistoryContract (db : DBState) (uid : Nat) : Prop :=
  ((get_user_predictions none db uid).2).Perm
      ((db.predictions.filter fun p => p.user_id == uid).map predEntryOf) ∧
  List.Sorted (fun a b : PredEntry => b.timestamp ≤ a.timestamp)
      (get_user_predictions none db uid).2 ∧
  (∀ exc un em pw, (register_user exc db un em pw).1.predictions = db.predictions) ∧
  (∀ exc un pw, (login_user exc db un pw).1.predictions = db.predictions) ∧
  (∀ exc uid2, (get_user_predictions exc db uid2).1.predictions = db.predictions) ∧
  (∀ exc uid2 d c n,
    (save_user_prediction exc db uid2 d c n).1.predictions = db.predictions ∨
      (save_user_prediction exc db uid2 d c n).1.predictions
        = db.predictions ++ [⟨db.nextPredId, uid2, d, c, n, db.nextPredId⟩])

/-- The exception contract: when the underlying SQLite or inference call
raises, each operation returns its failure value instead of propagating:
`(False, message)` for registration and login, `False` for saving, the
empty list for history, and `(None, None, None)` for inference. -/
def ExceptContract (e : String) (db : DBState) (un em pw : String) (uid : Nat)
    (d : String) (c : ℚ) (n : Option String)
    (model : Arr4 → Option (List ℚ)) (image_array : Arr4) : Prop :=
  register_user (some e) db un em pw = (db, false, "Registration failed: " ++ e) ∧
  login_user (some e) db un pw = (db, .failure ("Login failed: " ++ e)) ∧
  save_user_prediction (some e) db uid d c n = (db, false) ∧
  get_user_predictions (some e) db uid = (db, []) ∧
  predict_disease model image_array = (none, none, none)

/-! ## Test fixtures (concrete inputs for the instantiation theorems) -/

/-- A concrete 9-entry output vector with its maximum at index 1. -/
def testVec : List ℚ := [1/10, 9/10, 0, 0, 0, 0, 0, 0, 0]

/-- A concrete model that always returns `testVec`. -/
def testModel : Arr4 → Option (List ℚ) := fun _ => some testVec

/-- A concrete model whose `predict` call always raises. -/
def failModel : Arr4 → Option (List ℚ) := fun _ => none

/-- A concrete greyscale 64×64 uploaded image. -/
def testImage : PILImage := ⟨64, 64, "L", fun _ _ _ => (7 : Fin 256)⟩

/-- A concrete database holding one registered user. -/
def dbAlice : DBState :=
  ⟨[⟨1, "alice", "alice.at.example", hash_password "pw1"⟩], [], 2, 1⟩

/-- A concrete database holding three prediction rows for two users. -/
def dbPreds : DBState :=
  ⟨[], [⟨1, 5, "Healthy", 1/2, none, 1⟩,
        ⟨2, 5, "Infected-Aphids", 3/4, some "leaf.png", 2⟩,
        ⟨3, 6, "Healthy", 1, some "", 3⟩], 1, 4⟩

/-- A concrete single-class output vector (value 1 at the only index). -/
def oneVec : List ℚ := [1]

/-- A concrete model that always returns `oneVec`. -/
def oneModel : Arr4 → Option (List ℚ) := fun _ => some oneVec

/-- The database produced by one run of the inference path on a fresh
database with `oneModel`. -/
def dbApp : DBState :=
  app_predict_and_save none oneModel init_database 7 testImage (some "leaf.png")

/-! ## Theorems -/

/-- `np.argmax` fails exactly on the empty vector. -/
theorem np_argmax_eq_none {l : List ℚ} : np_argmax l = none ↔ l = [] := by
  cases l with
  | nil => simp [np_argmax]
  | cons x xs =>
    constructor
    · intro h
      exfalso
      cases hxs : np_argmax xs with
      | none => simp [np_argmax, hxs] at h
      | some j =>
        simp only [np_argmax, hxs] at h
        split at h <;> simp at h
    · intro h; exact absurd h (List.cons_ne_nil x xs)

/-- `np_argmax` returns the first index attaining the maximum entry. -/
theorem np_argmax_spec (l : List ℚ) (i : Nat) (h : np_argmax l = some i) :
    i < l.length ∧ (∀ j, j < l.length → l.getD j 0 ≤ l.getD i 0) ∧
      ∀ j, j < i → l.getD j 0 < l.getD i 0 := by
  induction l generalizing i with
  | nil => simp [np_argmax] at h
  | cons x xs ih =>
    cases hxs : np_argmax xs with
    | none =>
      have hx : xs = [] := np_argmax_eq_none.mp hxs
      subst hx
      simp only [np_argmax, Option.some.injEq] at h
      subst h
      refine ⟨by simp, ?_, ?_⟩
      · intro j hj
        have hj0 : j = 0 := by simp at hj; omega
        subst hj0; simp
      · intro j hj; exact absurd hj (Nat.not_lt_zero j)
    | some j =>
      simp only [np_argmax, hxs] at h
      obtain ⟨hj, hmax, hfirst⟩ := ih j hxs
      by_cases hc : x < xs.getD j 0
      · rw [if_pos hc] at h
        simp only [Option.some.injEq] at h
        subst h
        refine ⟨by simpa using Nat.succ_lt_succ hj, ?_, ?_⟩
        · intro k hk
          cases k with
          | zero =>
            simpa [List.getD_cons_zero, List.getD_cons_succ] using le_of_lt hc
          | succ m =>
            simp only [List.getD_cons_succ]
            exact hmax m (Nat.lt_of_succ_lt_succ (by simpa using hk))
        · intro k hk
          cases k with
          | zero => simpa [List.getD_cons_zero, List.getD_cons_succ] using hc
          | succ m =>
            simp only [List.getD_cons_succ]
            exact hfirst m (Nat.lt_of_succ_lt_succ hk)
      · rw [if_neg hc] at h
        simp only [Option.some.injEq] at h
        subst h
        push_neg at hc
        refine ⟨by simp, ?_, ?_⟩
        · intro k hk
          cases k with
          | zero => simp
          | succ m =>
            simp only [List.getD_cons_succ, List.getD_cons_zero]
            exact le_trans (hmax m (Nat.lt_of_succ_lt_succ (by simpa using hk))) hc
        · intro k hk; exact absurd hk (Nat.not_lt_zero k)

/-- C1: for every loaded model and preprocessed image array on which the
model call returns a length-9 output vector (the trained network has 9
output classes), `predict_disease` returns `class_names[i]` for `i` the
arg-max index of `predictions[0]`, the value `predictions[0][i]` as the
confidence, and the full vector `predictions[0]` as the third component. -/
theorem predict_disease_returns_argmax (model : Arr4 → Option (List ℚ))
    (image_array : Arr4) (preds : List ℚ)
    (hm : model image_array = some preds) (hlen : preds.length = 9) :
    PredictContract model image_array preds := by
  obtain ⟨i, hi⟩ : ∃ i, np_argmax preds = some i := by
    cases hx : np_argmax preds with
    | none =>
      have hnil : preds = [] := np_argmax_eq_none.mp hx
      subst hnil; simp at hlen
    | some i => exact ⟨i, rfl⟩
  obtain ⟨hilt, hmax, hfirst⟩ := np_argmax_spec preds i hi
  have hic : i < class_names.length := by
    have h9 : class_names.length = 9 := by rfl
    omega
  obtain ⟨c, hc⟩ : ∃ c, class_names.get? i = some c := ⟨_, List.get?_eq_get hic⟩
  have hq : preds.get? i = some (preds.getD i 0) := by
    simp [List.getD_eq_getElem?_getD, ← List.get?_eq_getElem?, List.get?_eq_get hilt]
  refine ⟨i, c, hi, hilt, hmax, hfirst, hc, ?_⟩
  simp only [predict_disease, hm, hi, hc, hq]

/-- Concrete instantiation of C1: the constant model returning `testVec`
classifies any array as the class at the arg-max index of `testVec`. -/
theorem predict_disease_returns_argmax_witness :
    testModel [] = some testVec ∧ testVec.length = 9 ∧
      PredictContract testModel [] testVec :=
  ⟨rfl, rfl, predict_disease_returns_argmax testModel [] testVec rfl rfl⟩

/-- Shape and range of `np.array(img) / 255.0`: height × width × 3, every
entry an 8-bit value divided by 255, hence in [0, 1]. -/
theorem np_array_div255_spec (img : PILImage) :
    (np_array_div255 img).length = img.height ∧
      ∀ row ∈ np_array_div255 img, row.length = img.width ∧
        ∀ px ∈ row, px.length = 3 ∧ ∀ v ∈ px, 0 ≤ v ∧ v ≤ 1 := by
  refine ⟨by simp [np_array_div255], ?_⟩
  intro row hrow
  simp only [np_array_div255, List.mem_map, List.mem_range] at hrow
  obtain ⟨i, _, rfl⟩ := hrow
  refine ⟨by simp, ?_⟩
  intro px hpx
  simp only [List.mem_map, List.mem_range] at hpx
  obtain ⟨j, _, rfl⟩ := hpx
  refine ⟨by simp, ?_⟩
  intro v hv
  simp only [List.mem_map] at hv
  obtain ⟨c, _, rfl⟩ := hv
  constructor
  · positivity
  · rw [div_le_one (by norm_num)]
    exact_mod_cast Nat.le_of_lt_succ (img.pixel i j c).isLt

/-- C2: for every uploaded image, `preprocess_image` resizes to 128×128,
converts to RGB when the mode is not already RGB, divides every 8-bit
pixel value by 255 so that each entry lies in [0, 1], and prepends a batch
dimension, returning an array of shape (1, 128, 128, 3). -/
theorem preprocess_image_shape (image : PILImage) : PreprocessContract image := by
  by_cases hm : (image.resize (128, 128)).mode ≠ "RGB"
  · refine ⟨(image.resize (128, 128)).convert "RGB", rfl, rfl, rfl, ?_, rfl, ?_, ?_⟩
    · simp only [preprocess_image]
      rw [if_pos hm]
    · exact (np_array_div255_spec _).1
    · intro row hrow
      exact (np_array_div255_spec _).2 row hrow
  · refine ⟨image.resize (128, 128), ?_, rfl, rfl, ?_, rfl, ?_, ?_⟩
    · push_neg at hm; exact hm
    · simp only [preprocess_image]
      rw [if_neg hm]
    · exact (np_array_div255_spec _).1
    · intro row hrow
      exact (np_array_div255_spec _).2 row hrow

/-- Concrete instantiation of C2 at a greyscale 64×64 image. -/
theorem preprocess_image_shape_witness : PreprocessContract testImage :=
  preprocess_image_shape testImage

/-- `login_user` never changes the database state. -/
theorem login_user_fst (exc : Option String) (db : DBState) (un pw : String) :
    (login_user exc db un pw).1 = db := by
  cases exc with
  | some e => rfl
  | none =>
    simp only [login_user]
    cases db.users.find? fun u =>
        u.username == un && u.password_hash == hash_password pw <;> rfl

/-- `get_user_predictions` never changes the database state. -/
theorem get_user_predictions_fst (exc : Option String) (db : DBState)
    (uid : Nat) : (get_user_predictions exc db uid).1 = db := by
  cases exc <;> rfl

/-- `save_user_prediction` never touches the users table. -/
theorem save_user_prediction_users (exc : Option String) (db : DBState)
    (uid : Nat) (d : String) (c : ℚ) (n : Option String) :
    (save_user_prediction exc db uid d c n).1.users = db.users := by
  cases exc <;> rfl

/-- `save_user_prediction` either leaves the predictions table unchanged
(on failure) or appends exactly the one new row. -/
theorem save_user_prediction_preds (exc : Option String) (db : DBState)
    (uid : Nat) (d : String) (c : ℚ) (n : Option String) :
    (save_user_prediction exc db uid d c n).1.predictions = db.predictions ∨
      (save_user_prediction exc db uid d c n).1.predictions
        = db.predictions ++ [⟨db.nextPredId, uid, d, c, n, db.nextPredId⟩] := by
  cases exc with
  | some e => exact Or.inl rfl
  | none => exact Or.inr rfl

/-- `register_user` never touches the predictions table. -/
theorem register_user_predictions (exc : Option String) (db : DBState)
    (un em pw : String) :
    (register_user exc db un em pw).1.predictions = db.predictions := by
  cases exc with
  | some e => rfl
  | none =>
    simp only [register_user]
    split_ifs <;> rfl

/-- `register_user` either leaves the users table unchanged (on failure)
or appends exactly the one new row. -/
theorem register_user_users (exc : Option String) (db : DBState)
    (un em pw : String) :
    (register_user exc db un em pw).1.users = db.users ∨
      (register_user exc db un em pw).1.users
        = db.users ++ [⟨db.nextUserId, un, em, hash_password pw⟩] := by
  cases exc with
  | some e => exact Or.inl rfl
  | none =>
    simp only [register_user]
    split_ifs <;> first | exact Or.inl rfl | exact Or.inr rfl

/-- The inference path writes at most one prediction row, taken from a
successful `predict_disease` result, and nothing else. -/
theorem app_predict_and_save_preds (exc : Option String)
    (model : Arr4 → Option (List ℚ)) (db : DBState) (uid : Nat)
    (image : PILImage) (n : Option String) :
    (app_predict_and_save exc model db uid image n).predictions
        = db.predictions ∨
      ∃ arr c q ov, predict_disease model arr = (some c, some q, ov) ∧
        (app_predict_and_save exc model db uid image n).predictions
          = db.predictions ++ [⟨db.nextPredId, uid, c, q, n, db.nextPredId⟩] := by
  unfold app_predict_and_save
  cases hpre : preprocess_image image with
  | none => exact Or.inl rfl
  | some arr =>
    dsimp only
    cases hpd : predict_disease model arr with
    | mk oc rest =>
      cases rest with
      | mk ocf ov =>
        cases oc with
        | none => exact Or.inl rfl
        | some pc =>
          cases ocf with
          | none => exact Or.inl rfl
          | some cf =>
            cases exc with
            | some e => exact Or.inl rfl
            | none => exact Or.inr ⟨arr, pc, cf, ov, hpd, rfl⟩

/-- The inference path never touches the users table. -/
theorem app_predict_and_save_users (exc : Option String)
    (model : Arr4 → Option (List ℚ)) (db : DBState) (uid : Nat)
    (image : PILImage) (n : Option String) :
    (app_predict_and_save exc model db uid image n).users = db.users := by
  unfold app_predict_and_save
  cases preprocess_image image with
  | none => rfl
  | some arr =>
    dsimp only
    rcases predict_disease model arr with ⟨_ | pc, _ | cf, ov⟩
    · rfl
    · rfl
    · rfl
    · exact save_user_prediction_users exc db uid pc cf n

/-- C5: no operation updates or deletes an existing user row: login and
history reads leave the database unchanged, saving a prediction (also via
the inference path) leaves the users table unchanged, and the only write
to the users table by any operation is the single row insert performed by
a successful registration. -/
theorem users_table_frame (exc : Option String) (db : DBState)
    (un em pw : String) (uid : Nat) (d : String) (c : ℚ) (n : Option String)
    (model : Arr4 → Option (List ℚ)) (img : PILImage) (nm : Option String) :
    FrameContract exc db un em pw uid d c n model img nm :=
  ⟨login_user_fst exc db un pw,
   get_user_predictions_fst exc db uid,
   save_user_prediction_users exc db uid d c n,
   app_predict_and_save_users exc model db uid img nm,
   register_user_users exc db un em pw⟩

/-- Concrete instantiation of C5 on a one-user database. -/
theorem users_table_frame_witness :
    FrameContract none dbAlice "bob" "bob.at.example" "pw2" 1 "Healthy" 0 none
      oneModel testImage none :=
  users_table_frame none dbAlice "bob" "bob.at.example" "pw2" 1 "Healthy" 0 none
    oneModel testImage none

/-- C4: `login_user` succeeds with the id, username and
email of the stored user exactly when the users table holds a row whose username is the given
one and whose password hash is the digest of the given password; otherwise
it fails with the fixed invalid-credentials message. -/
theorem login_user_spec (db : DBState) (un pw : String) :
    LoginContract db un pw := by
  unfold LoginContract
  simp only [login_user]
  cases hf : db.users.find? fun u =>
      u.username == un && u.password_hash == hash_password pw with
  | some u =>
    have hp := List.find?_some hf
    simp only [Bool.and_eq_true, beq_iff_eq] at hp
    obtain ⟨h1, h2⟩ := hp
    refine ⟨h1, ?_⟩
    have hm := List.mem_of_find?_eq_some hf
    have hu : (⟨u.id, u.username, u.email, hash_password pw⟩ : UserRow) = u := by
      cases u
      simp only at h2
      simp [h2]
    rw [hu]
    exact hm
  | none =>
    refine ⟨rfl, ?_⟩
    intro r hr hcontra
    have hn := List.find?_eq_none.mp hf r hr
    simp [hcontra.1, hcontra.2] at hn

/-- Concrete instantiation of C4 on a one-user database. -/
theorem login_user_spec_witness : LoginContract dbAlice "alice" "pw1" :=
  login_user_spec dbAlice "alice" "pw1"

/-- Registration preserves pairwise uniqueness of usernames and emails:
a duplicate is rejected before the insert, and a fresh insert cannot
collide with any stored row. -/
theorem register_preserves_unique (exc : Option String) (db : DBState)
    (un em pw : String) (h : UsersUnique db) :
    UsersUnique (register_user exc db un em pw).1 := by
  cases exc with
  | some e => exact h
  | none =>
    by_cases h1 : db.users.any fun u => u.username == un
    · simpa [register_user, h1] using h
    · by_cases h2 : db.users.any fun u => u.email == em
      · simpa [register_user, h1, h2] using h
      · have hall1 : ∀ u ∈ db.users, ¬u.username = un := by
          simpa using h1
        have hall2 : ∀ u ∈ db.users, ¬u.email = em := by
          simpa using h2
        unfold UsersUnique at h ⊢
        simp only [register_user, if_neg h1, if_neg h2]
        rw [List.pairwise_append]
        refine ⟨h, List.pairwise_singleton _ _, ?_⟩
        intro a ha b hb
        rw [List.mem_singleton] at hb
        subst hb
        exact ⟨hall1 a ha, hall2 a ha⟩

/-- Every reachable database state has pairwise distinct usernames and
emails. -/
theorem reachable_users_unique {db : DBState} (h : Reachable db) :
    UsersUnique db := by
  induction h with
  | init => exact List.Pairwise.nil
  | register exc un em pw h ih => exact register_preserves_unique exc _ un em pw ih
  | login exc un pw h ih =>
    unfold UsersUnique
    rw [login_user_fst]
    exact ih
  | save exc uid d c n h ih =>
    unfold UsersUnique
    rw [save_user_prediction_users]
    exact ih
  | history exc uid h ih =>
    unfold UsersUnique
    rw [get_user_predictions_fst]
    exact ih

/-- On a fault-free call, registering a username or email that some stored
row already carries fails with the matching "already exists" message and
returns the database unchanged. -/
theorem register_duplicate_rejected (db : DBState) (un em pw : String)
    (u : UserRow) (hu : u ∈ db.users) (hdup : u.username = un ∨ u.email = em) :
    register_user none db un em pw = (db, false, "Username already exists!") ∨
      register_user none db un em pw = (db, false, "Email already exists!") := by
  by_cases h1 : db.users.any fun x => x.username == un
  · left
    simp [register_user, h1]
  · right
    have h2 : (db.users.any fun x => x.email == em) = true := by
      cases hdup with
      | inl h =>
        exact absurd (List.any_eq_true.mpr ⟨u, hu, by simp [h]⟩) h1
      | inr h =>
        exact List.any_eq_true.mpr ⟨u, hu, by simp [h]⟩
    simp [register_user, h1, h2]

/-- C3: usernames and emails are unique across all users in every
reachable database state, and on every state already containing a user
with the given username or email, `register_user` fails with an "already
exists" message and leaves the database (hence the users table)
unchanged. -/
theorem users_unique_invariant (db : DBState) (hr : Reachable db) :
    UsersUnique db ∧
      ∀ un em pw u, u ∈ db.users → (u.username = un ∨ u.email = em) →
        register_user none db un em pw = (db, false, "Username already exists!") ∨
          register_user none db un em pw = (db, false, "Email already exists!") :=
  ⟨reachable_users_unique hr,
   fun un em pw u hu hdup => register_duplicate_rejected db un em pw u hu hdup⟩

/-- Concrete instantiation of C3: after registering alice on a fresh
database, re-registering the same username is rejected and the state is
unchanged. -/
theorem users_unique_invariant_witness :
    UsersUnique (register_user none init_database "alice" "mail" "pw").1 ∧
      (register_user none (register_user none init_database "alice" "mail" "pw").1
          "alice" "other" "pw2"
        = ((register_user none init_database "alice" "mail" "pw").1, false,
           "Username already exists!") ∨
       register_user none (register_user none init_database "alice" "mail" "pw").1
          "alice" "other" "pw2"
        = ((register_user none init_database "alice" "mail" "pw").1, false,
           "Email already exists!")) := by
  have h := users_unique_invariant
    (register_user none init_database "alice" "mail" "pw").1
    (Reachable.register none "alice" "mail" "pw" Reachable.init)
  exact ⟨h.1, h.2 "alice" "other" "pw2"
    ⟨1, "alice", "mail", hash_password "pw"⟩ (by decide) (Or.inl rfl)⟩

/-- C7: `get_user_predictions` returns exactly the prediction rows with
the given user id (as result dicts), ordered newest first by
`prediction_date`, and the prediction log is append-only: every store
operation either leaves the predictions table unchanged or appends
exactly one new row at the end. -/
theorem get_user_predictions_spec (db : DBState) (uid : Nat) :
    HistoryContract db uid := by
  refine ⟨?_, ?_, ?_, ?_, ?_, ?_⟩
  · simp only [get_user_predictions]
    exact (List.perm_insertionSort predDateGE _).map predEntryOf
  · simp only [get_user_predictions]
    exact List.Pairwise.map predEntryOf (fun a b hr => hr)
      (List.sorted_insertionSort predDateGE
        (db.predictions.filter fun p => p.user_id == uid))
  · intro exc un em pw
    exact register_user_predictions exc db un em pw
  · intro exc un pw
    rw [login_user_fst]
  · intro exc uid2
    rw [get_user_predictions_fst]
  · intro exc uid2 d c n
    exact save_user_prediction_preds exc db uid2 d c n

/-- Concrete instantiation of C7 on a three-row predictions table. -/
theorem get_user_predictions_spec_witness : HistoryContract dbPreds 5 :=
  get_user_predictions_spec dbPreds 5

/-- C8: every database and inference operation catches exceptions of the
underlying calls and returns a failure value instead of raising:
`(False, message)` from registration and login, `False` from saving, the
empty list from history, and `(None, None, None)` from inference. -/
theorem except_paths (e : String) (db : DBState) (un em pw : String)
    (uid : Nat) (d : String) (c : ℚ) (n : Option String)
    (model : Arr4 → Option (List ℚ)) (image_array : Arr4)
    (hm : model image_array = none) :
    ExceptContract e db un em pw uid d c n model image_array := by
  refine ⟨rfl, rfl, rfl, rfl, ?_⟩
  simp only [predict_disease, hm]

/-- Concrete instantiation of C8 with a raising model and error "boom". -/
theorem except_paths_witness :
    ExceptContract "boom" dbAlice "bob" "bob.at.example" "pw2" 1 "Healthy" 0
      none failModel [] :=
  except_paths "boom" dbAlice "bob" "bob.at.example" "pw2" 1 "Healthy" 0
    none failModel [] rfl

/-- C9: the key list of the `disease_info` constant is exactly
`class_names` (all 9 labels, in order, without duplicates); each key maps
to a full `DiseaseDetails` record (description, treatment, prevention,
severity, color) by the type of the table, and being a plain constant the
mapping is never mutated. -/
theorem disease_info_matches_classes :
    disease_info.map Prod.fst = class_names ∧
      class_names.length = 9 ∧ class_names.Nodup := by
  refine ⟨rfl, rfl, ?_⟩
  decide

/-- C10: whenever `register_user` succeeds, `login_user` with the same
username and password on the resulting database succeeds and returns the
id, username and email of the newly registered user. -/
theorem register_then_login (db : DBState) (un em pw : String)
    (h : (register_user none db un em pw).2.1 = true) :
    login_user none (register_user none db un em pw).1 un pw
      = ((register_user none db un em pw).1,
         .success db.nextUserId un em) := by
  by_cases h1 : db.users.any fun u => u.username == un
  · simp [register_user, h1] at h
  · by_cases h2 : db.users.any fun u => u.email == em
    · simp [register_user, h1, h2] at h
    · have hreg : (register_user none db un em pw).1
          = ⟨db.users ++ [⟨db.nextUserId, un, em, hash_password pw⟩],
             db.predictions, db.nextUserId + 1, db.nextPredId⟩ := by
        simp [register_user, h1, h2]
      rw [hreg]
      have hnone : db.users.find?
          (fun u => u.username == un && u.password_hash == hash_password pw)
            = none := by
        rw [List.find?_eq_none]
        intro x hx
        simp only [Bool.and_eq_true, beq_iff_eq]
        rintro ⟨hxu, -⟩
        exact absurd (List.any_eq_true.mpr ⟨x, hx, by simp [hxu]⟩) h1
      have hfind : ((db.users ++ [(⟨db.nextUserId, un, em, hash_password pw⟩ :
            UserRow)]).find?
          fun u => u.username == un && u.password_hash == hash_password pw)
            = some ⟨db.nextUserId, un, em, hash_password pw⟩ := by
        rw [List.find?_append, hnone, List.find?_cons_of_pos _ (by simp)]
        rfl
      simp only [login_user, hfind]

/-- Concrete instantiation of C10: registering alice on a fresh database
and logging in with her credentials returns her id 1, username and
email. -/
theorem register_then_login_witness :
    (register_user none init_database "alice" "mail" "pw").2.1 = true ∧
      login_user none (register_user none init_database "alice" "mail" "pw").1
          "alice" "pw"
        = ((register_user none init_database "alice" "mail" "pw").1,
           .success 1 "alice" "mail") :=
  ⟨rfl, register_then_login init_database "alice" "mail" "pw" rfl⟩

/-- A successful `predict_disease` result carries a label drawn from
`class_names` and a confidence drawn from the model's output vector. -/
theorem predict_disease_some (model : Arr4 → Option (List ℚ)) (arr : Arr4)
    (c : String) (q : ℚ) (ov : Option (List ℚ))
    (h : predict_disease model arr = (some c, some q, ov)) :
    c ∈ class_names ∧ ∃ v, model arr = some v ∧ q ∈ v := by
  cases hm : model arr with
  | none =>
    simp only [predict_disease, hm] at h
    simp at h
  | some preds =>
    cases hi : np_argmax preds with
    | none =>
      simp only [predict_disease, hm, hi] at h
      simp at h
    | some i =>
      cases hc : class_names.get? i with
      | none =>
        simp only [predict_disease, hm, hi, hc] at h
        simp at h
      | some cn =>
        cases hq : preds.get? i with
        | none =>
          simp only [predict_disease, hm, hi, hc, hq] at h
          simp at h
        | some qv =>
          simp only [predict_disease, hm, hi, hc, hq, Prod.mk.injEq,
            Option.some.injEq] at h
          obtain ⟨hc1, hq1, -⟩ := h
          subst hc1
          subst hq1
          exact ⟨List.get?_mem hc, preds, rfl, List.get?_mem hq⟩

/-- The single-class constant model outputs probability vectors. -/
theorem oneModel_prob : ModelOutputsProb oneModel := by
  intro a v h x hx
  have hv : v = oneVec := (Option.some.inj h).symm
  subst hv
  simp only [oneVec, List.mem_singleton] at hx
  subst hx
  norm_num

/-- C6: in every database state reachable when predictions are written
only through the inference path of the application with a softmax model, every
stored prediction row carries a disease label from `class_names` and a
confidence in [0, 1]. -/
theorem prediction_records_ok (db : DBState) (hr : ReachableApp db) :
    ∀ p ∈ db.predictions, p.disease ∈ class_names ∧
      0 ≤ p.confidence ∧ p.confidence ≤ 1 := by
  induction hr with
  | init => intro p hp; simp [init_database] at hp
  | register exc un em pw h ih =>
    intro p hp
    rw [register_user_predictions] at hp
    exact ih p hp
  | login exc un pw h ih =>
    intro p hp
    rw [login_user_fst] at hp
    exact ih p hp
  | infer exc model uid image n hprob h ih =>
    intro p hp
    rcases app_predict_and_save_preds exc model _ uid image n with
      heq | ⟨arr, c, q, ov, hpd, heq⟩
    · rw [heq] at hp
      exact ih p hp
    · rw [heq] at hp
      rcases List.mem_append.mp hp with hin | hnew
      · exact ih p hin
      · rw [List.mem_singleton] at hnew
        subst hnew
        obtain ⟨hcn, v, hv, hqv⟩ := predict_disease_some model arr c q ov hpd
        exact ⟨hcn, (hprob arr v hv q hqv).1, (hprob arr v hv q hqv).2⟩
  | history exc uid h ih =>
    intro p hp
    rw [get_user_predictions_fst] at hp
    exact ih p hp

/-- Concrete instantiation of C6: the row written by one run of the
inference path on a fresh database is well-formed. -/
theorem prediction_records_ok_witness :
    (⟨1, 7, "Healthy", 1, some "leaf.png", 1⟩ : PredRow).disease ∈ class_names ∧
      0 ≤ (⟨1, 7, "Healthy", 1, some "leaf.png", 1⟩ : PredRow).confidence ∧
      (⟨1, 7, "Healthy", 1, some "leaf.png", 1⟩ : PredRow).confidence ≤ 1 :=
  prediction_records_ok dbApp
    (ReachableApp.infer none oneModel 7 testImage (some "leaf.png")
      oneModel_prob ReachableApp.init)
    ⟨1, 7, "Healthy", 1, some "leaf.png", 1⟩
    (List.mem_singleton.mpr rfl)

end CottonApp
